import Mathlib

/-!
Verification of the GitHub portfolio application's data-fetching layer.

Part 1 embeds the code under `src/lib/github-api.ts` and
`src/hooks/useGitHub.ts`: the SWR cache-key generators, the
`GitHubApiError` class, the `fetchWithErrorHandling` wrapper and the
result shaping done by the hooks.

Part 2 models the generic remote-resource cache ("ResourceCache") that
the specification describes.  The cache behaviour itself lives in the
external `swr` library, whose source is not part of this repository, so
those definitions are modelled from the specification's algorithm
(request deduplication, freshness window, retry with exponential
backoff, stale-data retention across failed revalidation).
-/

namespace GitHubApp

/-! ### Part 1: embedding of `src/lib/github-api.ts` -/

/-- `const GITHUB_API_BASE = 'https://api.github.com'`. -/
def GITHUB_API_BASE : String := "https://api.github.com"

/-- The `GitHubApiError` class: `message` from `Error`, an optional
`status` and optional `documentation_url`, and `name` set to
`"GitHubApiError"` by the constructor. -/
structure GitHubApiError where
  message : String
  status : Option Nat
  documentation_url : Option String
  deriving Repr, DecidableEq

/-- `this.name = 'GitHubApiError'` in the constructor: every constructed
`GitHubApiError` has this name. -/
def GitHubApiError.name (_ : GitHubApiError) : String := "GitHubApiError"

/-- A JavaScript value thrown by `fetch` or by `response.json()`:
either an `Error` instance carrying a message, or some other value. -/
inductive Thrown where
  | jsError (message : String)
  | other
  deriving Repr, DecidableEq

/-- The payload the non-ok branch reads from `response.json()`:
`errorData.message` and `errorData.documentation_url`, either of which
may be absent. -/
structure ErrorData where
  message : Option String
  documentation_url : Option String
  deriving Repr, DecidableEq

/-- `response.json().catch(() => ({}))` — a failed parse yields `{}`,
whose `message` and `documentation_url` fields are absent. -/
def emptyErrorData : ErrorData := ⟨none, none⟩

/-- A `fetch` `Response` as `fetchWithErrorHandling` observes it:
`ok`, `status`, `statusText`, and the body as read by `response.json()`
on either branch (`errorJson` is the parse attempt used on the non-ok
branch, `bodyJson` the parse into `T` used on the ok branch; a parse
rejection on the ok branch escapes the `catch`, see
`fetchWithErrorHandling`). -/
structure HttpResponse (T : Type) where
  ok : Bool
  status : Nat
  statusText : String
  errorJson : Except Unit ErrorData
  bodyJson : Except Thrown T

/-- The outcome of `await fetch(url, ...)`: a response, or a thrown
value (network failure and the like). -/
inductive FetchResult (T : Type) where
  | response (r : HttpResponse T)
  | thrown (t : Thrown)

/-- JavaScript `x || y` on an optional string: an absent or empty
(falsy) `message` falls through to the fallback. -/
def jsOrString (x : Option String) (fallback : String) : String :=
  match x with
  | none => fallback
  | some m => if m = "" then fallback else m

/-- `error instanceof Error ? error.message : 'Unknown error occurred'`. -/
def thrownMessage : Thrown → String
  | .jsError m => m
  | .other => "Unknown error occurred"

/-- What a call of `fetchWithErrorHandling` resolves or rejects with:
the parsed value, a thrown `GitHubApiError`, or a raw rejection that
escaped the `try`/`catch` without being wrapped. -/
inductive FetchOutcome (T : Type) where
  | ok (v : T)
  | apiError (e : GitHubApiError)
  | unwrapped (t : Thrown)

/-- Whether the outcome is a thrown `GitHubApiError`. -/
def FetchOutcome.isApiError {T : Type} : FetchOutcome T → Bool
  | .apiError _ => true
  | _ => false

/-- `fetchWithErrorHandling<T>(url)`: on a non-ok response throw a
`GitHubApiError` built from the error payload
(`errorData.message || \x7bHTTP status: statusText\x7d`, the response
status, `errorData.documentation_url`); any other value thrown inside
the `try` (the `fetch` itself, the awaited error-payload read) is
caught and wrapped into a `GitHubApiError` with the thrown `Error`'s
message or `"Unknown error occurred"`, and no status.  On an ok
response the source does `return response.json()` with no `await`, so
the promise is returned as-is and a later parse rejection bypasses the
`catch` block entirely, surfacing as the raw thrown value
(`unwrapped`), not as a `GitHubApiError`. -/
def fetchWithErrorHandling {T : Type} (res : FetchResult T) :
    FetchOutcome T :=
  match res with
  | .thrown t => .apiError ⟨thrownMessage t, none, none⟩
  | .response r =>
    if r.ok then
      match r.bodyJson with
      | .ok v => .ok v
      | .error t => .unwrapped t
    else
      let errorData := (r.errorJson.toOption).getD emptyErrorData
      let fallback := "HTTP " ++ toString r.status ++ ": " ++ r.statusText
      .apiError ⟨jsOrString errorData.message fallback, some r.status,
        errorData.documentation_url⟩

/-- URL built by `fetchUser` / `fetchUserServer`. -/
def userUrl (username : String) : String :=
  GITHUB_API_BASE ++ "/users/" ++ username

/-- URL built by `fetchRepositories` / `fetchRepositoriesServer`. -/
def repositoriesUrl (username : String) (page perPage : Nat) : String :=
  GITHUB_API_BASE ++ "/users/" ++ username ++ "/repos?page=" ++
    toString page ++ "&per_page=" ++ toString perPage ++ "&sort=updated"

/-- `fetchUser(username)`: `fetchWithErrorHandling` at the user URL;
`net` stands for the ambient network, mapping a URL to the outcome of
fetching it. -/
def fetchUser {T : Type} (net : String → FetchResult T)
    (username : String) : FetchOutcome T :=
  fetchWithErrorHandling (net (userUrl username))

/-- `fetchRepositories(username, page, perPage)`: `fetchWithErrorHandling`
at the repositories URL. -/
def fetchRepositories {T : Type} (net : String → FetchResult T)
    (username : String) (page perPage : Nat) : FetchOutcome T :=
  fetchWithErrorHandling (net (repositoriesUrl username page perPage))

/-- `fetchUserServer` delegates to the same wrapper and URL. -/
def fetchUserServer {T : Type} (net : String → FetchResult T)
    (username : String) : FetchOutcome T :=
  fetchUser net username

/-- `fetchRepositoriesServer` delegates to the same wrapper and URL. -/
def fetchRepositoriesServer {T : Type} (net : String → FetchResult T)
    (username : String) (page perPage : Nat) : FetchOutcome T :=
  fetchRepositories net username page perPage

namespace swrKeys

/-- `swrKeys.user = (username) => \x7buser-$\x7busername\x7d\x7d`. -/
def user (username : String) : String := "user-" ++ username

/-- `swrKeys.repositories = (username, page, perPage) =>
\x7brepos-...\x7d` joining the three parameters with `-`. -/
def repositories (username : String) (page perPage : Nat) : String :=
  "repos-" ++ username ++ "-" ++ toString page ++ "-" ++ toString perPage

end swrKeys

/-! ### Embedding of `src/hooks/useGitHub.ts` (hook-level shaping) -/

/-- The key `useGitHubUser` passes to `useSWR`:
`username ? swrKeys.user(username) : null`.  The empty string is the
falsy string in JavaScript. -/
def useGitHubUserKey (username : String) : Option String :=
  if username = "" then none else some (swrKeys.user username)

/-- The key `useGitHubRepositories` passes to `useSWR`:
`username ? swrKeys.repositories(username, page, perPage) : null`. -/
def useGitHubRepositoriesKey (username : String) (page perPage : Nat) :
    Option String :=
  if username = "" then none
  else some (swrKeys.repositories username page perPage)

/-- JavaScript `data || []` where `data` is either `undefined` (no data
yet) or an array: `undefined` is falsy, every array (even the empty
one) is truthy. -/
def jsOrEmptyList {R : Type} (data : Option (List R)) : List R :=
  match data with
  | none => []
  | some v => v

/-- The `repositories` field returned by `useGitHubRepositories`:
`data || []`. -/
def useGitHubRepositoriesField {R : Type} (data : Option (List R)) :
    List R :=
  jsOrEmptyList data

/-! ### Part 2: the ResourceCache, modelled from the specification.

The deduplicating, freshness-aware cache with retry lives in the
external `swr` library; only its callers (the hooks above) are part of
this repository.  The definitions below are therefore modelled from the
specification's data model (§3) and algorithm (§4.1). -/

/-- Modelled from the spec: the entry `state`, one of
`idle`, `fetching`, `revalidating` (§3 CacheEntry). -/
inductive FetchState where
  | idle
  | fetching
  | revalidating
  deriving Repr, DecidableEq

/-- Whether a fetch for the entry is in flight (`fetching` or
`revalidating`). -/
def FetchState.inflight : FetchState → Bool
  | .idle => false
  | .fetching => true
  | .revalidating => true

/-- Modelled from the spec: a `CacheEntry` (§3) — last good `data`,
last `error`, `fetchedAt` timestamp of the last successful fetch,
`state`, and `subscriberCount`.  The `key` of §3 is the map key. -/
structure CacheEntry (D E : Type) where
  data : Option D
  error : Option E
  fetchedAt : Option Nat
  state : FetchState
  subscriberCount : Nat
  deriving Repr, DecidableEq

/-- The entry created on first request for a key: nothing fetched yet,
no error, idle, no subscribers counted yet. -/
def emptyEntry {D E : Type} : CacheEntry D E :=
  ⟨none, none, none, .idle, 0⟩

/-- Modelled from the spec: the `options` recognized by `request`
(§4.1): `freshnessWindowMs` (default 0), `retryCount` (default 3),
`retryBackoffMs` (default 1000), `revalidateOnActivate` (default
true). -/
structure Options where
  freshnessWindowMs : Nat := 0
  retryCount : Nat := 3
  retryBackoffMs : Nat := 1000
  revalidateOnActivate : Bool := true
  deriving Repr, DecidableEq

/-- Modelled from the spec: the cache map, key to entry; absent keys
have no entry yet. -/
structure Cache (D E : Type) where
  entries : String → Option (CacheEntry D E)

/-- The empty cache. -/
def Cache.empty {D E : Type} : Cache D E := ⟨fun _ => none⟩

/-- Replace the entry stored for `key`. -/
def Cache.update {D E : Type} (c : Cache D E) (key : String)
    (e : CacheEntry D E) : Cache D E :=
  ⟨fun k => if k = key then some e else c.entries k⟩

/-- What a `request` call did: served fresh cached data with no fetch,
attached to an already in-flight fetch (deduplication), or started a
new fetch (one invocation of `fetchFn`). -/
inductive ReqAction where
  | servedCached
  | attachedInflight
  | startedFetch
  deriving Repr, DecidableEq

/-- Modelled from the spec (§4.1 step 2): the entry is fresh at `now`
when it has been fetched and `now - fetchedAt < freshnessWindowMs`. -/
def CacheEntry.fresh {D E : Type} (e : CacheEntry D E) (now : Nat)
    (freshnessWindowMs : Nat) : Bool :=
  match e.fetchedAt with
  | none => false
  | some t => now - t < freshnessWindowMs

/-- Modelled from the spec (§4.1 Algorithm steps 1–4, before the
asynchronous part): look up or create the entry and increment
`subscriberCount` (step 1); if it has data and is fresh, serve the
cached data without fetching (step 2); else if a fetch is in flight,
attach to it without starting a second fetch (step 3); else mark the
entry `fetching` (`revalidating` when stale data exists) and invoke
`fetchFn` — reported as `startedFetch` (step 4). -/
def request {D E : Type} (c : Cache D E) (key : String) (opts : Options)
    (now : Nat) : Cache D E × ReqAction :=
  let e0 := (c.entries key).getD emptyEntry
  let e := { e0 with subscriberCount := e0.subscriberCount + 1 }
  if e.data.isSome && e.fresh now opts.freshnessWindowMs then
    (c.update key e, .servedCached)
  else if e.state.inflight then
    (c.update key e, .attachedInflight)
  else
    let st := if e.data.isSome then FetchState.revalidating
              else FetchState.fetching
    (c.update key { e with state := st }, .startedFetch)

/-- Modelled from the spec (§4.1 step 4, success): the in-flight fetch
for `key` resolves with value `v` at time `now` — set `data`, clear
`error`, set `fetchedAt := now`, `state := idle`.  A completion only
applies to an entry with a fetch in flight. -/
def completeSuccess {D E : Type} (c : Cache D E) (key : String) (v : D)
    (now : Nat) : Cache D E :=
  match c.entries key with
  | none => c
  | some e =>
    if e.state.inflight then
      c.update key { e with data := some v, error := none,
                            fetchedAt := some now, state := .idle }
    else c

/-- Modelled from the spec (§4.1 step 4, failure): all retry attempts
for the in-flight fetch failed — set `error`, preserve any prior
`data`, leave `fetchedAt` untouched (it is updated only on success),
`state := idle`. -/
def completeFailure {D E : Type} (c : Cache D E) (key : String)
    (err : E) : Cache D E :=
  match c.entries key with
  | none => c
  | some e =>
    if e.state.inflight then
      c.update key { e with error := some err, state := .idle }
    else c

/-- An event against the cache: a `request` call, or the resolution of
the in-flight fetch for a key (success with a value, or failure after
the retry policy is exhausted). -/
inductive Ev (D E : Type) where
  | req (key : String) (opts : Options) (now : Nat)
  | success (key : String) (v : D) (now : Nat)
  | failure (key : String) (err : E)

/-- The key an event concerns. -/
def Ev.key {D E : Type} : Ev D E → String
  | .req k _ _ => k
  | .success k _ _ => k
  | .failure k _ => k

/-- One event step; the second component counts fetch starts (each
start is one new invocation of `fetchFn`, at fetch-cycle granularity). -/
def step {D E : Type} (c : Cache D E) : Ev D E → Cache D E × Nat
  | .req k opts now =>
    ((request c k opts now).1,
     if (request c k opts now).2 = .startedFetch then 1 else 0)
  | .success k v now => (completeSuccess c k v now, 0)
  | .failure k err => (completeFailure c k err, 0)

/-- Run a list of events, totalling the fetch starts for `key`. -/
def run {D E : Type} (c : Cache D E) (key : String) :
    List (Ev D E) → Cache D E × Nat
  | [] => (c, 0)
  | ev :: evs =>
    ((run (step c ev).1 key evs).1,
     (if ev.key = key then (step c ev).2 else 0) +
       (run (step c ev).1 key evs).2)

/-- Number of completion events for `key` in a trace. -/
def completions {D E : Type} (key : String) : List (Ev D E) → Nat
  | [] => 0
  | .success k _ _ :: evs =>
    (if k = key then 1 else 0) + completions key evs
  | .failure k _ :: evs =>
    (if k = key then 1 else 0) + completions key evs
  | .req _ _ _ :: evs => completions key evs

/-! ### Modelled from the spec: the retry policy (§4.1 step 4, §7).

A triggered fetch cycle runs `fetchFn` repeatedly: a transient
(network/5xx-class) failure is retried after a delay of
`retryBackoffMs * 2^attempt`, up to `retryCount` retries; a permanent
(4xx-class or validation) failure is surfaced immediately without
retry; a success ends the cycle. -/

/-- The outcome of one invocation of `fetchFn`: success, a transient
error (retried) or a permanent error (not retried). -/
inductive AttemptOutcome (D E : Type) where
  | ok (v : D)
  | transient (e : E)
  | permanent (e : E)

/-- Modelled from the spec: the delay inserted before the retry that
follows a transient failure of attempt number `attempt` (0-based):
`retryBackoffMs * 2^attempt`. -/
def retryDelay (retryBackoffMs attempt : Nat) : Nat :=
  retryBackoffMs * 2 ^ attempt

/-- Modelled from the spec: run a fetch cycle from attempt number
`attempt` with `remaining` retries left.  A success or a permanent
failure ends the cycle at once; a transient failure is retried after
`retryDelay` while retries remain, and surfaced once they are
exhausted.  Returns the number of invocations of `fetchFn`, the list
of inter-attempt delays, and the final outcome. -/
def fetchCycleAux {D E : Type} (fetchFn : Nat → AttemptOutcome D E)
    (retryBackoffMs : Nat) : Nat → Nat → Nat × List Nat × Except E D
  | attempt, 0 =>
    match fetchFn attempt with
    | .ok v => (1, [], .ok v)
    | .permanent e => (1, [], .error e)
    | .transient e => (1, [], .error e)
  | attempt, r + 1 =>
    match fetchFn attempt with
    | .ok v => (1, [], .ok v)
    | .permanent e => (1, [], .error e)
    | .transient _ =>
      ((fetchCycleAux fetchFn retryBackoffMs (attempt + 1) r).1 + 1,
       retryDelay retryBackoffMs attempt ::
         (fetchCycleAux fetchFn retryBackoffMs (attempt + 1) r).2.1,
       (fetchCycleAux fetchFn retryBackoffMs (attempt + 1) r).2.2)

/-- Modelled from the spec: one triggered fetch cycle under `opts`. -/
def runFetchCycle {D E : Type} (opts : Options)
    (fetchFn : Nat → AttemptOutcome D E) : Nat × List Nat × Except E D :=
  fetchCycleAux fetchFn opts.retryBackoffMs 0 opts.retryCount

/-! ### Modelled from the spec: hook-level conditional request.

`useSWR` is passed `null` instead of a key when the username is falsy;
with no key, no request is issued against the cache: no fetch starts
and no entry is created. -/

/-- Issue a request only when a key is present. -/
def hookRequest {D E : Type} (c : Cache D E) (key : Option String)
    (opts : Options) (now : Nat) : Cache D E × Option ReqAction :=
  match key with
  | none => (c, none)
  | some k => ((request c k opts now).1, some (request c k opts now).2)

/-- Whether a fetch for `K` is in flight in cache `c`. -/
def inflightAt {D E : Type} (c : Cache D E) (K : String) : Bool :=
  match c.entries K with
  | some e => e.state.inflight
  | none => false

/-- The message of the `GitHubApiError` carried by an outcome, if the
outcome is a thrown `GitHubApiError`. -/
def errorMessageOf {T : Type} : FetchOutcome T → Option String
  | .apiError e => some e.message
  | .ok _ => none
  | .unwrapped _ => none

/-! ## Helper lemmas -/

/-- With a zero freshness window no entry is ever fresh. -/
lemma fresh_zero {D E : Type} (e : CacheEntry D E) (now : Nat) :
    e.fresh now 0 = false := by
  cases h : e.fetchedAt <;> simp [CacheEntry.fresh, h]

/-- A successful attempt ends the cycle at once, whatever the retry
budget. -/
lemma fetchCycleAux_ok {D E : Type} (f : Nat → AttemptOutcome D E)
    (b a : Nat) (v : D) (h : f a = .ok v) :
    ∀ r, fetchCycleAux f b a r = (1, [], .ok v) := by
  intro r
  cases r <;> simp [fetchCycleAux, h]

/-- A permanent failure ends the cycle at once, whatever the retry
budget: one invocation, no delay, error surfaced. -/
lemma fetchCycleAux_permanent {D E : Type} (f : Nat → AttemptOutcome D E)
    (b a : Nat) (e : E) (h : f a = .permanent e) :
    ∀ r, fetchCycleAux f b a r = (1, [], .error e) := by
  intro r
  cases r <;> simp [fetchCycleAux, h]

/-- A fetch cycle started at attempt `a` with `r` retries left invokes
`fetchFn` at most `r + 1` times. -/
lemma fetchCycleAux_count_le {D E : Type} (f : Nat → AttemptOutcome D E)
    (b : Nat) : ∀ r a : Nat, (fetchCycleAux f b a r).1 ≤ r + 1 := by
  intro r
  induction r with
  | zero =>
    intro a
    cases h : f a <;> simp [fetchCycleAux, h]
  | succ r ih =>
    intro a
    cases h : f a with
    | ok v => simp [fetchCycleAux, h]
    | permanent e => simp [fetchCycleAux, h]
    | transient e =>
      have := ih (a + 1)
      simp [fetchCycleAux, h]
      omega

/-- Every inter-attempt delay of a fetch cycle started at attempt `a`
is exponential in its position: the delay at index `i` is
`b * 2 ^ (a + i)`. -/
lemma fetchCycleAux_delays {D E : Type} (f : Nat → AttemptOutcome D E)
    (b : Nat) :
    ∀ r a i : Nat,
      (fetchCycleAux f b a r).2.1[i]? = none ∨
      (fetchCycleAux f b a r).2.1[i]? = some (b * 2 ^ (a + i)) := by
  intro r
  induction r with
  | zero =>
    intro a i
    cases h : f a <;> simp [fetchCycleAux, h]
  | succ r ih =>
    intro a i
    cases h : f a with
    | ok v => simp [fetchCycleAux, h]
    | permanent e => simp [fetchCycleAux, h]
    | transient e =>
      cases i with
      | zero =>
        right
        simp [fetchCycleAux, h, retryDelay]
      | succ i =>
        rcases ih (a + 1) i with h' | h'
        · left
          simp [fetchCycleAux, h, h']
        · right
          have hx : a + 1 + i = a + (i + 1) := by omega
          simp [fetchCycleAux, h, h', hx]

/-- When every attempt fails transiently, a cycle started at attempt
`a` with `r` retries left invokes `fetchFn` exactly `r + 1` times and
surfaces the last attempt's error. -/
lemma fetchCycleAux_all_transient {D E : Type} (es : Nat → E) (b : Nat) :
    ∀ r a : Nat,
      (fetchCycleAux (D := D)
        (fun i => AttemptOutcome.transient (es i)) b a r).1 = r + 1 ∧
      (fetchCycleAux (D := D)
        (fun i => AttemptOutcome.transient (es i)) b a r).2.2
        = Except.error (es (a + r)) := by
  intro r
  induction r with
  | zero =>
    intro a
    simp [fetchCycleAux]
  | succ r ih =>
    intro a
    obtain ⟨h1, h2⟩ := ih (a + 1)
    constructor
    · simp [fetchCycleAux, h1]
    · simp [fetchCycleAux, h2]
      congr 1
      omega

/-- A request for key `k` leaves every other key's entry unchanged. -/
lemma request_entries_ne {D E : Type} (c : Cache D E) (k : String)
    (opts : Options) (now : Nat) (K : String) (h : ¬ k = K) :
    (request c k opts now).1.entries K = c.entries K := by
  have h2 : ¬ K = k := fun hh => h hh.symm
  simp only [request]
  split
  · simp [Cache.update, h2]
  · split <;> simp [Cache.update, h2]

/-- A success completion for key `k` leaves every other key's entry
unchanged. -/
lemma completeSuccess_entries_ne {D E : Type} (c : Cache D E)
    (k : String) (v : D) (now : Nat) (K : String) (h : ¬ k = K) :
    (completeSuccess c k v now).entries K = c.entries K := by
  have h2 : ¬ K = k := fun hh => h hh.symm
  simp only [completeSuccess]
  split
  · rfl
  · split <;> simp [Cache.update, h2]

/-- A failure completion for key `k` leaves every other key's entry
unchanged. -/
lemma completeFailure_entries_ne {D E : Type} (c : Cache D E)
    (k : String) (err : E) (K : String) (h : ¬ k = K) :
    (completeFailure c k err).entries K = c.entries K := by
  have h2 : ¬ K = k := fun hh => h hh.symm
  simp only [completeFailure]
  split
  · rfl
  · split <;> simp [Cache.update, h2]

/-- A request for a key with no entry yet starts a fetch and stores a
`fetching` entry with one subscriber. -/
lemma request_on_empty {D E : Type} (c : Cache D E) (K : String)
    (opts : Options) (now : Nat) (h : c.entries K = none) :
    (request c K opts now).2 = .startedFetch ∧
    (request c K opts now).1.entries K
      = some ⟨none, none, none, .fetching, 1⟩ := by
  constructor
  · simp [request, h, emptyEntry, CacheEntry.fresh, FetchState.inflight]
  · simp [request, h, emptyEntry, CacheEntry.fresh, FetchState.inflight,
      Cache.update]

/-- A request while a fetch for the key is in flight never starts a
second fetch: it is served from cache or attached to the in-flight
operation, and only the subscriber count changes. -/
lemma request_on_inflight {D E : Type} (c : Cache D E) (K : String)
    (opts : Options) (now : Nat) (e0 : CacheEntry D E)
    (h : c.entries K = some e0) (hin : e0.state.inflight = true) :
    ((request c K opts now).2 = .servedCached ∨
      (request c K opts now).2 = .attachedInflight) ∧
    (request c K opts now).1.entries K
      = some { e0 with subscriberCount := e0.subscriberCount + 1 } := by
  simp only [request, h, Option.getD_some]
  split
  · exact ⟨Or.inl rfl, by simp [Cache.update]⟩
  · exact ⟨Or.inr rfl, by simp [Cache.update]⟩

/-- The in-flight flag of a key is the in-flight flag of the entry
`request` reads for it. -/
lemma inflightAt_getD {D E : Type} (c : Cache D E) (K : String) :
    inflightAt c K = ((c.entries K).getD emptyEntry).state.inflight := by
  unfold inflightAt
  cases c.entries K <;> rfl

/-- A request either starts a fetch — only from a non-in-flight state,
leaving the key in flight — or leaves the in-flight flag unchanged. -/
lemma request_inflight_change {D E : Type} (c : Cache D E) (K : String)
    (opts : Options) (now : Nat) :
    ((request c K opts now).2 = .startedFetch ∧ inflightAt c K = false ∧
      inflightAt (request c K opts now).1 K = true) ∨
    (¬ (request c K opts now).2 = .startedFetch ∧
      inflightAt (request c K opts now).1 K = inflightAt c K) := by
  have hC := inflightAt_getD c K
  simp only [request]
  split
  · right
    refine ⟨by simp, ?_⟩
    rw [hC]
    simp [inflightAt, Cache.update]
  · split
    · right
      refine ⟨by simp, ?_⟩
      rw [hC]
      simp [inflightAt, Cache.update]
    · left
      rename_i h1 h2
      refine ⟨rfl, ?_, ?_⟩
      · rw [hC]
        simpa using h2
      · simp [inflightAt, Cache.update]
        split <;> rfl

/-- While the entry for `K` stays in flight, any further run of
requests for `K` starts zero fetches and leaves the entry in flight. -/
lemma run_reqs_on_inflight {D E : Type} (K : String) :
    ∀ (ps : List (Options × Nat)) (c : Cache D E) (e0 : CacheEntry D E),
      c.entries K = some e0 → e0.state.inflight = true →
      (run c K (ps.map fun p => Ev.req K p.1 p.2)).2 = 0 ∧
      ∃ e1, (run c K (ps.map fun p => Ev.req K p.1 p.2)).1.entries K
          = some e1 ∧ e1.state.inflight = true := by
  intro ps
  induction ps with
  | nil =>
    intro c e0 h hin
    exact ⟨rfl, e0, h, hin⟩
  | cons p ps ih =>
    intro c e0 h hin
    obtain ⟨hact, hent⟩ := request_on_inflight c K p.1 p.2 e0 h hin
    obtain ⟨h0, e1, h1, hin1⟩ := ih (request c K p.1 p.2).1
      { e0 with subscriberCount := e0.subscriberCount + 1 } hent hin
    constructor
    · rcases hact with ha | ha <;> simp [run, step, Ev.key, ha, h0]
    · exact ⟨e1, by simpa [run, step, Ev.key] using h1, hin1⟩

/-- Along any event trace, the number of fetches started for a key
never exceeds the number of completed fetches for it by more than the
key's current in-flight allowance: at every moment at most one fetch
per key is outstanding. -/
lemma starts_le_completions {D E : Type} (K : String) :
    ∀ (evs : List (Ev D E)) (c : Cache D E),
      (run c K evs).2 ≤ completions K evs +
        (if inflightAt c K then 0 else 1) := by
  intro evs
  induction evs with
  | nil =>
    intro c
    simp only [run, completions]
    split <;> omega
  | cons ev evs ih =>
    intro c
    cases ev with
    | req k opts now =>
      by_cases hk : k = K
      · subst hk
        have hih := ih (request c k opts now).1
        rcases request_inflight_change c k opts now with
          ⟨hs, hb, ha⟩ | ⟨hs, ha⟩
        · rw [ha] at hih
          rw [hb]
          simp at hih
          simp [run, step, Ev.key, completions, hs]
          omega
        · rw [ha] at hih
          simp [run, step, Ev.key, completions, hs]
          omega
      · have hent := request_entries_ne c k opts now K hk
        have ha : inflightAt (request c k opts now).1 K
            = inflightAt c K := by
          unfold inflightAt
          rw [hent]
        have hih := ih (request c k opts now).1
        rw [ha] at hih
        simp [run, step, Ev.key, completions, hk]
        omega
    | success k v now =>
      have hih := ih (completeSuccess c k v now)
      have hb : (if inflightAt (completeSuccess c k v now) K then 0
          else 1) ≤ 1 := by
        split <;> omega
      by_cases hk : k = K
      · subst hk
        simp [run, step, Ev.key, completions]
        omega
      · have hent := completeSuccess_entries_ne c k v now K hk
        have ha : inflightAt (completeSuccess c k v now) K
            = inflightAt c K := by
          unfold inflightAt
          rw [hent]
        rw [ha] at hih
        simp [run, step, Ev.key, completions, hk]
        omega
    | failure k err =>
      have hih := ih (completeFailure c k err)
      have hb : (if inflightAt (completeFailure c k err) K then 0
          else 1) ≤ 1 := by
        split <;> omega
      by_cases hk : k = K
      · subst hk
        simp [run, step, Ev.key, completions]
        omega
      · have hent := completeFailure_entries_ne c k err K hk
        have ha : inflightAt (completeFailure c k err) K
            = inflightAt c K := by
          unfold inflightAt
          rw [hent]
        rw [ha] at hih
        simp [run, step, Ev.key, completions, hk]
        omega

/-- Running a concatenated trace: the final cache is that of running
both parts in order, and the fetch starts add up. -/
lemma run_append {D E : Type} (K : String) :
    ∀ (evs evs2 : List (Ev D E)) (c : Cache D E),
      (run c K (evs ++ evs2)).1 = (run (run c K evs).1 K evs2).1 ∧
      (run c K (evs ++ evs2)).2
        = (run c K evs).2 + (run (run c K evs).1 K evs2).2 := by
  intro evs
  induction evs with
  | nil =>
    intro evs2 c
    simp [run]
  | cons ev evs ih =>
    intro evs2 c
    obtain ⟨h1, h2⟩ := ih evs2 (step c ev).1
    rw [List.cons_append]
    constructor
    · simp only [run]
      exact h1
    · simp only [run]
      rw [h2]
      omega

/-- A request for a key whose entry is idle and fresh (data `v`
fetched at `tSucc`, window larger than the elapsed `delta`) is served
from cache: no fetch starts, the entry keeps `v`, and only the
subscriber count grows. -/
lemma request_fresh_hit {D E : Type} (c1 : Cache D E) (K : String)
    (v : D) (tSucc delta extra rc bm n : Nat) (ra : Bool)
    (h1 : c1.entries K = some ⟨some v, none, some tSucc, .idle, n⟩) :
    (request c1 K ⟨delta + 1 + extra, rc, bm, ra⟩ (tSucc + delta)).2
      = .servedCached ∧
    (request c1 K ⟨delta + 1 + extra, rc, bm, ra⟩
      (tSucc + delta)).1.entries K
      = some ⟨some v, none, some tSucc, .idle, n + 1⟩ ∧
    (step c1 (Ev.req K ⟨delta + 1 + extra, rc, bm, ra⟩
      (tSucc + delta))).2 = 0 := by
  have hf : ∀ m : Nat,
      (⟨some v, none, some tSucc, .idle, m⟩ : CacheEntry D E).fresh
        (tSucc + delta) (delta + 1 + extra) = true := by
    intro m
    simp [CacheEntry.fresh, decide_eq_true_eq]
    omega
  have ha : (request c1 K ⟨delta + 1 + extra, rc, bm, ra⟩
      (tSucc + delta)).2 = .servedCached := by
    simp [request, h1, hf]
  refine ⟨ha, ?_, by simp [step, ha]⟩
  simp [request, h1, hf, Cache.update]

/-! ## Theorems for the claims -/

/-- **C7**: the user cache key is `"user-"` followed by the username,
and the repositories cache key joins `"repos-"`, the username, page and
perPage with `"-"`; in particular the key generators produce exactly
`"user-alice"` and `"repos-bob-1-10"` for those parameters. -/
theorem C7_swr_key_generators :
    (∀ username : String, swrKeys.user username = "user-" ++ username) ∧
    (∀ (username : String) (page perPage : Nat),
      swrKeys.repositories username page perPage =
        "repos-" ++ username ++ "-" ++ toString page ++ "-" ++
          toString perPage) ∧
    swrKeys.user "alice" = "user-alice" ∧
    swrKeys.repositories "bob" 1 10 = "repos-bob-1-10" :=
  ⟨fun _ => rfl, fun _ _ _ => rfl, rfl, rfl⟩

/-- **C9**: the `repositories` field computed by `useGitHubRepositories`
is always a genuine list — present data is returned as-is, absent data
yields the empty list rather than an absent value. -/
theorem C9_repositories_always_list :
    (∀ (R : Type) (data : Option (List R)),
      useGitHubRepositoriesField data = data.getD []) ∧
    (∀ R : Type, useGitHubRepositoriesField (R := R) none = []) := by
  constructor
  · intro R data; cases data <;> rfl
  · intro R; rfl

/-- **C1**: for any key `K`, a burst of requests for `K` from a fresh
cache — all issued before the fetch resolves — starts exactly one fetch
(`fetchFn` runs once, however many callers there are); along any event
trace at most one fetch per key is outstanding at any time (starts
never exceed completions by more than one); and when the single fetch
resolves, the one shared entry every caller reads holds the same
resolved value (resp. the same error). -/
theorem C1_dedup_single_fetch_per_key :
    ∀ (D E : Type) (K : String) (p0 : Options × Nat)
      (rest : List (Options × Nat)) (v : D) (err : E) (tv : Nat),
      (run (Cache.empty (D := D) (E := E)) K
        ((p0 :: rest).map fun p => Ev.req K p.1 p.2)).2 = 1 ∧
      (∀ evs : List (Ev D E),
        (run Cache.empty K evs).2 ≤ completions K evs + 1) ∧
      (∃ e, (run (Cache.empty (D := D) (E := E)) K
          (((p0 :: rest).map fun p => Ev.req K p.1 p.2) ++
            [Ev.success K v tv])).1.entries K = some e ∧
        e.data = some v ∧ e.error = none ∧ e.fetchedAt = some tv ∧
        e.state = .idle) ∧
      (∃ e, (run (Cache.empty (D := D) (E := E)) K
          (((p0 :: rest).map fun p => Ev.req K p.1 p.2) ++
            [Ev.failure K err])).1.entries K = some e ∧
        e.error = some err ∧ e.state = .idle) := by
  intro D E K p0 rest v err tv
  obtain ⟨hs, he⟩ := request_on_empty
    (Cache.empty (D := D) (E := E)) K p0.1 p0.2 rfl
  obtain ⟨h0, e1, h1, hin1⟩ := run_reqs_on_inflight K rest
    (request Cache.empty K p0.1 p0.2).1
    ⟨none, none, none, .fetching, 1⟩ he rfl
  have hfull1 : (run (Cache.empty (D := D) (E := E)) K
      ((p0 :: rest).map fun p => Ev.req K p.1 p.2)).1.entries K
      = some e1 := by
    simpa [run, step] using h1
  have hcount : (run (Cache.empty (D := D) (E := E)) K
      ((p0 :: rest).map fun p => Ev.req K p.1 p.2)).2 = 1 := by
    simp [run, step, Ev.key, hs]
    simpa [run, step, Ev.key] using h0
  refine ⟨hcount, ?_, ?_, ?_⟩
  · intro evs
    have h := starts_le_completions K evs (Cache.empty (D := D) (E := E))
    have hin : inflightAt (Cache.empty (D := D) (E := E)) K = false := rfl
    rw [hin] at h
    simpa using h
  · refine ⟨⟨some v, none, some tv, .idle, e1.subscriberCount⟩,
      ?_, rfl, rfl, rfl, rfl⟩
    rw [(run_append K ((p0 :: rest).map fun p => Ev.req K p.1 p.2)
      [Ev.success K v tv] Cache.empty).1]
    simp [run, step, completeSuccess, h1, hin1, Cache.update]
  · refine ⟨⟨e1.data, some err, e1.fetchedAt, .idle,
      e1.subscriberCount⟩, ?_, rfl, rfl⟩
    rw [(run_append K ((p0 :: rest).map fun p => Ev.req K p.1 p.2)
      [Ev.failure K err] Cache.empty).1]
    simp [run, step, completeFailure, h1, hin1, Cache.update]

/-- **C2**: a cache entry holding previously fetched data `d` whose
revalidation fetch fails keeps `data = d` (still retrievable from the
entry), gains `error = err` alongside the stale data, keeps its
`fetchedAt`, and returns to `idle`. -/
theorem C2_stale_data_preserved_on_failed_revalidation :
    ∀ (D E : Type) (c : Cache D E) (K : String) (d : D) (err : E)
      (eOld : Option E) (t n : Nat),
      ∃ e', (completeFailure
          (c.update K ⟨some d, eOld, some t, .revalidating, n⟩) K
          err).entries K = some e' ∧
        e'.data = some d ∧ e'.error = some err ∧ e'.fetchedAt = some t ∧
        e'.state = .idle := by
  intro D E c K d err eOld t n
  refine ⟨⟨some d, some err, some t, .idle, n⟩, ?_, rfl, rfl, rfl, rfl⟩
  simp [completeFailure, Cache.update, FetchState.inflight]

/-- **C6**: the default options have `freshnessWindowMs = 0`; with a
zero freshness window a request on an idle (not in-flight) entry always
starts a fetch, and no request is ever served from cache as fresh. -/
theorem C6_default_freshness_window_zero :
    ∀ (D E : Type) (c : Cache D E) (K : String) (now rc bm n : Nat)
      (ra : Bool) (d : Option D) (er : Option E) (ft : Option Nat),
      ({} : Options).freshnessWindowMs = 0 ∧
      (request (c.update K ⟨d, er, ft, .idle, n⟩) K ⟨0, rc, bm, ra⟩
        now).2 = .startedFetch ∧
      ((request c K ⟨0, rc, bm, ra⟩ now).2 = .attachedInflight ∨
        (request c K ⟨0, rc, bm, ra⟩ now).2 = .startedFetch) := by
  intro D E c K now rc bm n ra d er ft
  refine ⟨rfl, ?_, ?_⟩
  · simp [request, Cache.update, fresh_zero, FetchState.inflight]
  · cases h : (((c.entries K).getD emptyEntry)).state.inflight
    · right; simp [request, fresh_zero, h]
    · left; simp [request, fresh_zero, h]

/-- **C10**: with an empty (falsy) username both hook key computations
yield no key, and a hook request with no key leaves the cache
untouched, starts no fetch and creates no entry. -/
theorem C10_falsy_username_no_fetch :
    ∀ (D E : Type) (c : Cache D E) (opts : Options)
      (now page perPage : Nat) (k : String),
      useGitHubUserKey "" = none ∧
      useGitHubRepositoriesKey "" page perPage = none ∧
      hookRequest (D := D) (E := E) c (useGitHubUserKey "") opts now
        = (c, none) ∧
      hookRequest (D := D) (E := E) c
        (useGitHubRepositoriesKey "" page perPage) opts now = (c, none) ∧
      (hookRequest (D := D) (E := E) Cache.empty (useGitHubUserKey "")
        opts now).1.entries k = none := by
  intro D E c opts now page perPage k
  exact ⟨rfl, rfl, rfl, rfl, rfl⟩

/-- **C3**: a triggered fetch cycle invokes `fetchFn` at most
`retryCount + 1` times; each inter-attempt delay at position `attempt`
equals `retryBackoffMs * 2 ^ attempt`; and the option defaults are
`retryCount = 3` and `retryBackoffMs = 1000`. -/
theorem C3_retry_count_and_backoff :
    ∀ (D E : Type) (opts : Options)
      (fetchFn : Nat → AttemptOutcome D E) (i : Nat),
      (runFetchCycle opts fetchFn).1 ≤ opts.retryCount + 1 ∧
      ((runFetchCycle opts fetchFn).2.1[i]? = none ∨
        (runFetchCycle opts fetchFn).2.1[i]?
          = some (opts.retryBackoffMs * 2 ^ i)) ∧
      ({} : Options).retryCount = 3 ∧
      ({} : Options).retryBackoffMs = 1000 := by
  intro D E opts fetchFn i
  refine ⟨fetchCycleAux_count_le _ _ _ _, ?_, rfl, rfl⟩
  have h := fetchCycleAux_delays fetchFn opts.retryBackoffMs
    opts.retryCount 0 i
  simpa [runFetchCycle] using h

/-- **C4**: a permanent failure on the first attempt is surfaced
immediately — one invocation, no retry and no delay; an always-transient
`fetchFn` is invoked exactly `retryCount + 1` times with the last
transient error surfaced only after the retries are exhausted; and a
transient first failure is retried (with `retryCount ≥ 1`, a transient
failure followed by a success yields the success after one backoff
delay). -/
theorem C4_permanent_vs_transient_errors :
    ∀ (D E : Type) (opts : Options) (g : Nat → AttemptOutcome D E)
      (e : E) (es : Nat → E) (v : D) (fw r bm : Nat) (ra : Bool),
      runFetchCycle opts (fun i => if i = 0 then .permanent e else g i)
        = (1, [], .error e) ∧
      (runFetchCycle (D := D) opts
        (fun i => AttemptOutcome.transient (es i))).1
        = opts.retryCount + 1 ∧
      (runFetchCycle (D := D) opts
        (fun i => AttemptOutcome.transient (es i))).2.2
        = .error (es opts.retryCount) ∧
      runFetchCycle ⟨fw, r + 1, bm, ra⟩
          (fun i => if i = 0 then .transient e else .ok v)
        = (2, [bm * 2 ^ 0], .ok v) := by
  intro D E opts g e es v fw r bm ra
  obtain ⟨h1, h2⟩ := fetchCycleAux_all_transient (D := D) es
    opts.retryBackoffMs opts.retryCount 0
  refine ⟨?_, ?_, ?_, ?_⟩
  · have h0 : (fun i => if i = 0 then AttemptOutcome.permanent e
        else g i) 0 = AttemptOutcome.permanent e := by simp
    simpa [runFetchCycle] using
      fetchCycleAux_permanent _ opts.retryBackoffMs 0 e h0
        opts.retryCount
  · simpa [runFetchCycle] using h1
  · simpa [runFetchCycle] using h2
  · have hok : (fun i => if i = 0 then AttemptOutcome.transient e
        else AttemptOutcome.ok v) 1 = AttemptOutcome.ok v := by simp
    simp [runFetchCycle, fetchCycleAux, retryDelay,
      fetchCycleAux_ok (fun i => if i = 0 then AttemptOutcome.transient e
        else AttemptOutcome.ok v) bm 1 v hok]

/-- **C5**: after a successful fetch of `v` at time `tSucc`, a request
issued `delta` milliseconds later with a freshness window strictly
larger than `delta` is served from cache — the action is
`servedCached`, the entry still holds `v`, and the event step counts
zero `fetchFn` invocations. -/
theorem C5_fresh_requests_served_from_cache :
    ∀ (D E : Type) (c : Cache D E) (K : String) (v : D)
      (dOld : Option D) (errOld : Option E) (tOld : Option Nat)
      (n tSucc delta extra rc bm : Nat) (ra : Bool),
      (request (completeSuccess
          (c.update K ⟨dOld, errOld, tOld, .fetching, n⟩) K v tSucc)
        K ⟨delta + 1 + extra, rc, bm, ra⟩ (tSucc + delta)).2
        = .servedCached ∧
      (∃ e', (request (completeSuccess
          (c.update K ⟨dOld, errOld, tOld, .fetching, n⟩) K v tSucc)
          K ⟨delta + 1 + extra, rc, bm, ra⟩ (tSucc + delta)).1.entries K
          = some e' ∧ e'.data = some v) ∧
      (step (completeSuccess
          (c.update K ⟨dOld, errOld, tOld, .fetching, n⟩) K v tSucc)
        (Ev.req K ⟨delta + 1 + extra, rc, bm, ra⟩ (tSucc + delta))).2
        = 0 := by
  intro D E c K v dOld errOld tOld n tSucc delta extra rc bm ra
  have h1 : (completeSuccess
      (c.update K ⟨dOld, errOld, tOld, .fetching, n⟩) K v tSucc).entries K
      = some ⟨some v, none, some tSucc, .idle, n⟩ := by
    simp [completeSuccess, Cache.update, FetchState.inflight]
  obtain ⟨ha, he, hs⟩ := request_fresh_hit
    (completeSuccess (c.update K ⟨dOld, errOld, tOld, .fetching, n⟩)
      K v tSucc) K v tSucc delta extra rc bm n ra h1
  exact ⟨ha, ⟨⟨some v, none, some tSucc, .idle, n + 1⟩, he, rfl⟩, hs⟩

/-- **C8** counterexample: two concrete inputs falsify the claim.  An
ok (200) response whose JSON body fails to parse makes
`fetchWithErrorHandling` surface the raw rejection unwrapped — the
source returns `response.json()` without `await`, so the rejection
bypasses the `catch` — hence not every error it throws is a
`GitHubApiError`.  And a non-ok response whose error payload has a
`message` field present but equal to `""` yields the fallback
`"HTTP 404: Not Found"` as the error message, not the present (empty)
`message` field. -/
theorem C8_counterexample_error_paths :
    fetchWithErrorHandling (T := Unit)
      (.response ⟨true, 200, "OK", Except.ok ⟨none, none⟩,
        Except.error (Thrown.jsError "Unexpected end of JSON input")⟩)
      = .unwrapped (.jsError "Unexpected end of JSON input") ∧
    (fetchWithErrorHandling (T := Unit)
      (.response ⟨true, 200, "OK", Except.ok ⟨none, none⟩,
        Except.error (Thrown.jsError "Unexpected end of JSON input")⟩)
      ).isApiError = false ∧
    errorMessageOf (fetchWithErrorHandling (T := Unit)
      (.response ⟨false, 404, "Not Found",
        Except.ok ⟨some "", none⟩, Except.error Thrown.other⟩))
      = some "HTTP 404: Not Found" ∧
    decide ((some "HTTP 404: Not Found" : Option String) = some "")
      = false := by
  exact ⟨rfl, rfl, rfl, by decide⟩

/-- **C8** (amended): every failure raised inside the `try` — the
fetch itself throwing, or a non-ok response — surfaces as a
`GitHubApiError` (whose `name` is `"GitHubApiError"`): a non-ok
response yields an error carrying the response status, the payload
`message` when present and non-empty (JavaScript truthiness) and
otherwise the `"HTTP status: statusText"` fallback, plus the payload
`documentation_url`; a thrown `Error` is wrapped with its message and
any other thrown value with `"Unknown error occurred"`.  However an ok
response whose body fails to parse rejects with the raw value,
unwrapped, because `response.json()` is returned without `await`.  The
four fetch helpers all delegate to `fetchWithErrorHandling`. -/
theorem C8_amended_error_wrapping :
    ∀ (T : Type) (status : Nat) (statusText m : String)
      (msg docUrl : Option String) (bj : Except Thrown T)
      (ej : Except Unit ErrorData) (v : T) (t : Thrown)
      (e : GitHubApiError) (net : String → FetchResult T)
      (username : String) (page perPage : Nat),
      fetchWithErrorHandling
          (.response ⟨false, status, statusText, .ok ⟨msg, docUrl⟩, bj⟩)
        = .apiError ⟨jsOrString msg
            ("HTTP " ++ toString status ++ ": " ++ statusText),
            some status, docUrl⟩ ∧
      fetchWithErrorHandling
          (.response ⟨false, status, statusText, .error (), bj⟩)
        = .apiError ⟨"HTTP " ++ toString status ++ ": " ++ statusText,
            some status, none⟩ ∧
      fetchWithErrorHandling
          (.response ⟨false, status, statusText, .ok ⟨some "", docUrl⟩,
            bj⟩)
        = .apiError ⟨"HTTP " ++ toString status ++ ": " ++ statusText,
            some status, docUrl⟩ ∧
      fetchWithErrorHandling (T := T) (.thrown (.jsError m))
        = .apiError ⟨m, none, none⟩ ∧
      fetchWithErrorHandling (T := T) (.thrown .other)
        = .apiError ⟨"Unknown error occurred", none, none⟩ ∧
      fetchWithErrorHandling
          (.response ⟨true, status, statusText, ej, Except.ok v⟩)
        = .ok v ∧
      fetchWithErrorHandling (T := T)
          (.response ⟨true, status, statusText, ej, Except.error t⟩)
        = .unwrapped t ∧
      e.name = "GitHubApiError" ∧
      fetchUser net username
        = fetchWithErrorHandling (net (userUrl username)) ∧
      fetchRepositories net username page perPage
        = fetchWithErrorHandling
            (net (repositoriesUrl username page perPage)) ∧
      fetchUserServer net username = fetchUser net username ∧
      fetchRepositoriesServer net username page perPage
        = fetchRepositories net username page perPage := by
  intro T status statusText m msg docUrl bj ej v t e net username
    page perPage
  refine ⟨rfl, rfl, rfl, rfl, rfl, rfl, rfl, rfl, rfl, rfl, rfl, rfl⟩

end GitHubApp
